import Mathlib

/-!
Shallow embedding of the cinema scheduling engine of this repository
(`cinema/models.py` and `cinema/admin.py`).

Time is measured in whole minutes (`Int`); calendar dates are day numbers
(`Int`), with 1440 minutes per day.  The entity store is a pair of lists
standing for the Film and Seance tables.  Django specifics embedded here:
a queryset filter is a `List.filter`, `order_by("starts_at").first()` is a
stable minimum over the table list, `exclude(pk=self.pk)` with a `None`
primary key excludes nothing, and Python truthiness makes a duration of
`0` behave like a missing duration.
-/

namespace Cinema

/-- Film.Status in models.py; `comingSoon` ("SOON") is the spec's UPCOMING. -/
inductive Status where
  | nowShowing
  | comingSoon
  | archived
deriving DecidableEq, Repr

/-- A Film row: the fields the scheduling engine reads and writes. -/
structure Film where
  id : Nat
  durationMinutes : Option Nat
  releaseDate : Option Int
  status : Status
deriving DecidableEq, Repr

/-- A stored Seance row. -/
structure Seance where
  id : Nat
  filmId : Nat
  salleId : Nat
  startsAt : Int
  endsAt : Option Int
deriving DecidableEq, Repr

/-- The entity store: the Film and Seance tables. -/
structure Store where
  films : List Film
  seances : List Seance
deriving DecidableEq, Repr

/-- An unsaved Seance as Django sees it before `full_clean`: nullable
references and fields, and a caller-supplied `ends_at`. -/
structure SeanceDraft where
  pk : Option Nat
  filmId : Option Nat
  salleId : Option Nat
  startsAt : Option Int
  endsAt : Option Int
deriving DecidableEq, Repr

/-- Resolve a film reference: first row of the Film table with this id. -/
def getFilm (st : Store) (fid : Nat) : Option Film :=
  st.films.find? (fun f => f.id == fid)

/-- Film.has_future_seances: `self.seances.filter(starts_at__gte=now).exists()`. -/
def hasFutureSeances (st : Store) (fid : Nat) (now : Int) : Bool :=
  st.seances.any (fun s => s.filmId == fid && decide (now ≤ s.startsAt))

/-- Python truthiness test `self.release_date and self.release_date > today`
(a date object is truthy exactly when it is not None). -/
def releaseAfter (f : Film) (today : Int) : Bool :=
  match f.releaseDate with
  | some d => decide (today < d)
  | none => false

/-- Python truthiness test `self.release_date and self.release_date <= today`. -/
def releaseOnOrBefore (f : Film) (today : Int) : Bool :=
  match f.releaseDate with
  | some d => decide (d ≤ today)
  | none => false

/-- Film.compute_status: the rule ladder exactly as written in models.py. -/
def computeStatus (st : Store) (f : Film) (today now : Int) : Status :=
  if releaseAfter f today then .comingSoon
  else if hasFutureSeances st f.id now then .nowShowing
  else if releaseOnOrBefore f today then .archived
  else .comingSoon

/-- Release date known and strictly after today (first rule of the spec's
Status Deriver, stated in the spec's words). -/
def relKnownAfter (f : Film) (today : Int) : Prop :=
  ∃ d, f.releaseDate = some d ∧ today < d

/-- Release date known and today or earlier (third rule of the spec's
Status Deriver). -/
def relKnownOnOrBefore (f : Film) (today : Int) : Prop :=
  ∃ d, f.releaseDate = some d ∧ d ≤ today

/-- At least one showtime of the film starts at or after the current
instant (second rule of the spec's Status Deriver). -/
def specHasFuture (st : Store) (f : Film) (now : Int) : Prop :=
  ∃ s ∈ st.seances, s.filmId = f.id ∧ now ≤ s.startsAt

instance (f : Film) (today : Int) : Decidable (relKnownAfter f today) :=
  match h : f.releaseDate with
  | some d =>
      if hd : today < d then isTrue ⟨d, h, hd⟩
      else isFalse (by rintro ⟨d', hd', hlt⟩; rw [h] at hd'; cases hd'; exact hd hlt)
  | none => isFalse (by rintro ⟨d', hd', _⟩; rw [h] at hd'; cases hd')

instance (f : Film) (today : Int) : Decidable (relKnownOnOrBefore f today) :=
  match h : f.releaseDate with
  | some d =>
      if hd : d ≤ today then isTrue ⟨d, h, hd⟩
      else isFalse (by rintro ⟨d', hd', hle⟩; rw [h] at hd'; cases hd'; exact hd hle)
  | none => isFalse (by rintro ⟨d', hd', _⟩; rw [h] at hd'; cases hd')

instance (st : Store) (f : Film) (now : Int) : Decidable (specHasFuture st f now) :=
  List.decidableBEx _ st.seances

/-- The Status Deriver exactly as the spec words its four ordered rules
(kept separate from `computeStatus` so the two can be compared). -/
def specDeriveStatus (st : Store) (f : Film) (today now : Int) : Status :=
  if relKnownAfter f today then .comingSoon
  else if specHasFuture st f now then .nowShowing
  else if relKnownOnOrBefore f today then .archived
  else .comingSoon

/-- `Film.objects.filter(pk=fid).update(status=v)`: writes only the status
column of the film rows with this id. -/
def updateFilmStatus (st : Store) (fid : Nat) (v : Status) : Store :=
  { st with films := st.films.map (fun f => if f.id == fid then { f with status := v } else f) }

/-- Film.refresh_status (with save=True): recompute, and persist only the
status column when it changed. -/
def refreshStatus (st : Store) (f : Film) (today now : Int) : Status × Store :=
  let newStatus := computeStatus st f today now
  if f.status ≠ newStatus then (newStatus, updateFilmStatus st f.id newStatus)
  else (newStatus, st)

/-- The configuration surface: `CINEMA_TURNOVER_MINUTES` (default 30). -/
structure Config where
  turnoverMinutes : Int
deriving DecidableEq, Repr

/-- The typed failures a single-seance save can raise (ValidationError
variants of models.py, plus the required-field errors of clean_fields). -/
inductive SaveError where
  | fieldRequired
  | filmNotFound
  | missingDuration
  | conflict (s : Seance)
deriving DecidableEq, Repr

/-- Seance.compute_ends_at.  Python truthiness makes
`if not self.film.duration_minutes` fire for a duration of None or 0. -/
def computeEndsAt (st : Store) (c : SeanceDraft) : Except SaveError (Option Int) :=
  match c.filmId with
  | none => .ok none
  | some fid =>
    match getFilm st fid with
    | none => .error .filmNotFound
    | some film =>
      match film.durationMinutes with
      | none => .error .missingDuration
      | some 0 => .error .missingDuration
      | some d =>
        match c.startsAt with
        | none => .ok none
        | some t => .ok (some (t + (d : Int)))

/-- The queryset filter of Seance.clean: same salle, not the row being
updated (`exclude(pk=self.pk)`, which excludes nothing when pk is None),
`starts_at < ends_at + buffer` and `ends_at > starts_at - buffer` (an SQL
comparison against a NULL ends_at is never satisfied). -/
def collides (cfg : Config) (hid : Nat) (pk : Option Nat) (t e : Int) (s : Seance) : Bool :=
  s.salleId == hid && !(some s.id == pk)
    && decide (s.startsAt < e + cfg.turnoverMinutes)
    && (match s.endsAt with
        | some se => decide (t - cfg.turnoverMinutes < se)
        | none => false)

/-- `candidates.order_by("starts_at").first()`: the first row, in table
order, among those of minimal starts_at (a stable minimum — SQL gives no
further tie-break beyond the sort key). -/
def minStart (s b : Seance) : Seance :=
  if b.startsAt < s.startsAt then b else s

def earliestByStart : List Seance → Option Seance
  | [] => none
  | s :: rest =>
    match earliestByStart rest with
    | none => some s
    | some b => some (minStart s b)

/-- The first half of Seance.clean: recompute ends_at when film and
starts_at are both set (propagating compute_ends_at's error), leave the
draft alone otherwise. -/
def cleanStep1 (st : Store) (c : SeanceDraft) : Except SaveError SeanceDraft :=
  match c.filmId, c.startsAt with
  | some _, some _ =>
    match computeEndsAt st c with
    | .error e => .error e
    | .ok e => .ok { c with endsAt := e }
  | _, _ => .ok c

/-- Seance.clean: recompute ends_at, skip the overlap check on incomplete
data, otherwise raise on the earliest colliding seance of the salle. -/
def seanceClean (st : Store) (cfg : Config) (c : SeanceDraft) : Except SaveError SeanceDraft :=
  match cleanStep1 st c with
  | .error e => .error e
  | .ok c1 =>
    match c1.salleId, c1.startsAt, c1.endsAt with
    | some hid, some t, some e =>
      match earliestByStart (st.seances.filter (collides cfg hid c1.pk t e)) with
      | some b => .error (.conflict b)
      | none => .ok c1
    | _, _, _ => .ok c1

/-- The outcome of Seance.save. -/
inductive SaveOutcome where
  | ok (s : Seance)
  | err (e : SaveError)
deriving DecidableEq, Repr

/-- Fresh primary key for an insert. -/
def nextId (st : Store) : Nat :=
  (st.seances.map (fun s => s.id)).foldl max 0 + 1

/-- The write of `super().save()`: update in place when a row with this
pk exists, insert otherwise (Django saves fall back to an insert when the
update matches no row), append a fresh row when pk is unset. -/
def writeSeance (st : Store) (pk : Option Nat) (fid hid : Nat) (t : Int) (e : Option Int) :
    Seance × Store :=
  match pk with
  | some k =>
      let s : Seance := ⟨k, fid, hid, t, e⟩
      if st.seances.any (fun x => x.id == k) then
        (s, { st with seances := st.seances.map (fun x => if x.id == k then s else x) })
      else
        (s, { st with seances := st.seances ++ [s] })
  | none =>
      let s : Seance := ⟨nextId st, fid, hid, t, e⟩
      (s, { st with seances := st.seances ++ [s] })

/-- Seance.save: full_clean (clean_fields on the three required columns,
then clean), only then the write, then `self.film.refresh_status`.
On a validation error nothing is written and the store is returned as it
was. -/
def seanceSave (st : Store) (cfg : Config) (today now : Int) (c : SeanceDraft) :
    SaveOutcome × Store :=
  match c.filmId, c.salleId, c.startsAt with
  | some fid, some hid, some t =>
    match seanceClean st cfg c with
    | .error e => (.err e, st)
    | .ok c1 =>
      let ws := writeSeance st c.pk fid hid t c1.endsAt
      let st2 :=
        match getFilm ws.2 fid with
        | some film => (refreshStatus ws.2 film today now).2
        | none => ws.2
      (.ok ws.1, st2)
  | _, _, _ => (.err .fieldRequired, st)

/-- Seance.delete: keep the film reference, delete the row, then refresh
that film's status when it still exists. -/
def seanceDelete (st : Store) (today now : Int) (sid : Nat) : Store :=
  match st.seances.find? (fun s => s.id == sid) with
  | none => st
  | some s =>
    let st1 : Store := { st with seances := st.seances.filter (fun x => !(x.id == sid)) }
    match getFilm st1 s.filmId with
    | some film => (refreshStatus st1 film today now).2
    | none => st1

/-- The write of Film's `super().save()`: update the row in place when it
exists, insert it otherwise. -/
def filmWrite (st : Store) (f : Film) : Store :=
  if st.films.any (fun x => x.id == f.id) then
    { st with films := st.films.map (fun x => if x.id == f.id then f else x) }
  else
    { st with films := st.films ++ [f] }

/-- Film.save: write the row first (so the pk exists), then refresh_status. -/
def filmSave (st : Store) (today now : Int) (f : Film) : Store :=
  (refreshStatus (filmWrite st f) f today now).2

/-- Overwrite the stored duration of a film (used to compare a duration
of 0 with an absent duration). -/
def setFilmDuration (st : Store) (fid : Nat) (v : Option Nat) : Store :=
  { st with films := st.films.map (fun f => if f.id == fid then { f with durationMinutes := v } else f) }

/-- A separator of `re.split(r"[\s,;]+", ...)` (ASCII whitespace). -/
def isSepChar (ch : Char) : Bool :=
  ch == ' ' || ch == ',' || ch == ';' || ch == '\t' || ch == '\n' || ch == '\r'

/-- Split the raw times field on runs of separators and drop the empty
pieces (the `strip` plus the comprehension filter of clean_times). -/
def tokenize (raw : List Char) : List (List Char) :=
  (raw.splitOnP isSepChar).filter (fun tk => !tk.isEmpty)

/-- Numeric value of a digit string. -/
def digitsVal (l : List Char) : Nat :=
  l.foldl (fun a ch => a * 10 + (ch.toNat - 48)) 0

/-- `datetime.strptime(part, "%H:%M")`, as minutes of the day: one or two
digits up to 23, a colon, one or two digits up to 59, nothing else. -/
def parseHHMM (tk : List Char) : Option Nat :=
  let hh := tk.takeWhile (fun ch => !(ch == ':'))
  match tk.dropWhile (fun ch => !(ch == ':')) with
  | ':' :: mm =>
      if hh.all Char.isDigit && decide (1 ≤ hh.length) && decide (hh.length ≤ 2)
          && decide (digitsVal hh ≤ 23)
          && mm.all Char.isDigit && decide (1 ≤ mm.length) && decide (mm.length ≤ 2)
          && decide (digitsVal mm ≤ 59) then
        some (digitsVal hh * 60 + digitsVal mm)
      else none
  | _ => none

/-- The two whole-request failures of the bulk form's validation. -/
inductive TimesError where
  | invalidTokens (toks : List (List Char))
  | empty
deriving DecidableEq, Repr

/-- BulkSeanceCreateForm.clean_times: collect every unparsable token and
report them together; an empty parsed list is its own error. -/
def cleanTimes (raw : List Char) : Except TimesError (List Nat) :=
  let parts := tokenize raw
  let parsed := parts.filterMap parseHHMM
  let invalid := parts.filter (fun p => (parseHHMM p).isNone)
  if !invalid.isEmpty then .error (.invalidTokens invalid)
  else if parsed.isEmpty then .error .empty
  else .ok parsed

/-- A validated recurrence specification (the form's cleaned_data). -/
structure BulkSpec where
  filmId : Nat
  salleId : Nat
  startDate : Int
  endDate : Int
  times : List Nat
  weekdays : List Int
deriving DecidableEq, Repr

/-- Python's date.weekday (Monday = 0); day 0, 1970-01-01, was a Thursday. -/
def pyWeekday (d : Int) : Int := (d + 3) % 7

/-- `if weekdays and current_date.weekday() not in weekdays: continue` —
a date qualifies when the filter is empty or contains its weekday. -/
def dayMatches (spec : BulkSpec) (d : Int) : Bool :=
  spec.weekdays.isEmpty || spec.weekdays.contains (pyWeekday d)

/-- The dates start..endD inclusive, by fuel on their distance. -/
def dateRangeAux : Int → Nat → List Int
  | d, 0 => [d]
  | d, n + 1 => d :: dateRangeAux (d + 1) n

/-- The `while current_date <= end_date` walk of form.save. -/
def dateRange (s e : Int) : List Int :=
  if s ≤ e then dateRangeAux s (e - s).toNat else []

/-- The candidate (date, minutes-of-day) pairs: every qualifying date,
each with every parsed time, in loop order. -/
def candidatePairs (spec : BulkSpec) : List (Int × Nat) :=
  ((dateRange spec.startDate spec.endDate).filter (dayMatches spec)).flatMap
    (fun d => spec.times.map (fun tm => (d, tm)))

/-- The start instant of a candidate (`datetime.combine` in the single
configured time zone). -/
def candInstant (cand : Int × Nat) : Int :=
  cand.1 * 1440 + (cand.2 : Int)

/-- The draft `Seance.objects.create` builds for a candidate. -/
def candDraft (spec : BulkSpec) (cand : Int × Nat) : SeanceDraft :=
  ⟨none, some spec.filmId, some spec.salleId, some (candInstant cand), none⟩

/-- `Seance.objects.filter(film=film, salle=salle, starts_at=starts_at).exists()`. -/
def tripleExists (st : Store) (fid hid : Nat) (t : Int) : Bool :=
  st.seances.any (fun s => s.filmId == fid && s.salleId == hid && s.startsAt == t)

/-- The running outcome of form.save: created and skipped counters and the
error messages, each tagged with its candidate's date and time. -/
structure BulkResult where
  created : Nat
  skipped : Nat
  errors : List (Int × Nat × SaveError)
deriving DecidableEq, Repr

/-- One iteration of the expansion loop: skip when the exact
(film, salle, starts_at) triple already exists, otherwise attempt the
create and record a tagged failure instead of aborting. -/
def bulkStep (cfg : Config) (today now : Int) (spec : BulkSpec)
    (acc : BulkResult × Store) (cand : Int × Nat) : BulkResult × Store :=
  let res := acc.1
  let st := acc.2
  if tripleExists st spec.filmId spec.salleId (candInstant cand) then
    ({ res with skipped := res.skipped + 1 }, st)
  else
    match seanceSave st cfg today now (candDraft spec cand) with
    | (.ok _, st1) => ({ res with created := res.created + 1 }, st1)
    | (.err e, st1) => ({ res with errors := res.errors ++ [(cand.1, cand.2, e)] }, st1)

/-- BulkSeanceCreateForm.save: the nested date/time loop as a fold over
the candidate list. -/
def bulkSave (cfg : Config) (today now : Int) (spec : BulkSpec) (st : Store) :
    BulkResult × Store :=
  (candidatePairs spec).foldl (bulkStep cfg today now spec) (⟨0, 0, []⟩, st)

/-- A candidate the expansion can no longer create: its triple already
exists in the store, or its save fails there. -/
def candSettled (cfg : Config) (today now : Int) (spec : BulkSpec) (st : Store)
    (cand : Int × Nat) : Prop :=
  tripleExists st spec.filmId spec.salleId (candInstant cand) = true ∨
  ∃ e, (seanceSave st cfg today now (candDraft spec cand)).1 = .err e

/-- The raw form input before validation. -/
structure FormInput where
  filmId : Nat
  salleId : Nat
  startDate : Int
  endDate : Int
  timesRaw : List Char
  weekdays : List Int
deriving DecidableEq, Repr

/-- The upfront whole-request failures of the bulk form. -/
inductive FormError where
  | badDateRange
  | times (e : TimesError)
deriving DecidableEq, Repr

/-- Form validation: clean_times, and clean's end-before-start check. -/
def validateForm (inp : FormInput) : Except FormError BulkSpec :=
  match cleanTimes inp.timesRaw with
  | .error e => .error (.times e)
  | .ok times =>
    if inp.endDate < inp.startDate then .error .badDateRange
    else .ok ⟨inp.filmId, inp.salleId, inp.startDate, inp.endDate, times, inp.weekdays⟩

/-- bulk_create_view: form.save runs only when the form is valid; an
invalid form reaches no candidate and writes nothing. -/
def bulkCreate (cfg : Config) (today now : Int) (inp : FormInput) (st : Store) :
    Except FormError (BulkResult × Store) :=
  match validateForm inp with
  | .error e => .error e
  | .ok spec => .ok (bulkSave cfg today now spec st)

/-! Concrete example data (10:00 = minute 600 of day 0, and so on),
used to evaluate the operations at the scenarios of the specification. -/

/-- A two-hour film. -/
def exFilm : Film := ⟨1, some 120, none, .comingSoon⟩

/-- A film whose duration is unknown. -/
def exFilmNoDur : Film := ⟨2, none, none, .comingSoon⟩

/-- A film whose stored duration is 0 minutes. -/
def exFilmZeroDur : Film := ⟨3, some 0, none, .comingSoon⟩

/-- A 10:00–12:00 showtime of the two-hour film in salle 1. -/
def exSeance : Seance := ⟨1, 1, 1, 600, some 720⟩

def exStore : Store := ⟨[exFilm, exFilmNoDur, exFilmZeroDur], [exSeance]⟩

/-- The default turnover buffer of 30 minutes. -/
def exCfg : Config := ⟨30⟩

/-- A fresh single-showtime draft for salle 1. -/
def exDraft (fid : Nat) (t : Int) : SeanceDraft :=
  ⟨none, some fid, some 1, some t, none⟩

/-- Two showtimes with equal start times; the one with the larger id sits
earlier in the table. -/
def cexSeanceA : Seance := ⟨2, 1, 1, 600, some 720⟩

def cexSeanceB : Seance := ⟨1, 1, 1, 600, some 720⟩

def cexStore : Store := ⟨[exFilm], [cexSeanceA, cexSeanceB]⟩

/-- A one-day recurrence: day 10 at 10:00 and 11:00, no weekday filter. -/
def exSpec : BulkSpec := ⟨1, 1, 10, 10, [600, 660], []⟩

/-- The store after exSpec has been expanded once over exStore. -/
def exStoreBulk : Store := (bulkSave exCfg 0 0 exSpec exStore).2

/-- The film row of exFilm once its status has been refreshed to
NOW_SHOWING. -/
def exFilmAfter : Film := ⟨1, some 120, none, .nowShowing⟩

/-- The store after the accepted 12:31 candidate has been saved. -/
def exStoreAfter : Store :=
  ⟨[exFilmAfter, exFilmNoDur, exFilmZeroDur], [exSeance, ⟨2, 1, 1, 751, some 871⟩]⟩

/-- A bulk form input whose times field holds two unparsable tokens. -/
def exBadInput : FormInput := ⟨1, 1, 10, 10, "10:70 xx".toList, []⟩

/-- map a film to everything but its status column. -/
def filmData (f : Film) : Nat × Option Nat × Option Int :=
  (f.id, f.durationMinutes, f.releaseDate)

/-- Store evolution as the engine performs it: seance rows are preserved,
and film rows keep their id, duration and release date (only the status
column ever changes). -/
def storeLE (st st1 : Store) : Prop :=
  (∀ s ∈ st.seances, s ∈ st1.seances) ∧
  (∀ fid, (getFilm st fid).map filmData = (getFilm st1 fid).map filmData)

/-! ## Properties -/

theorem releaseAfter_iff (f : Film) (today : Int) :
    releaseAfter f today = true ↔ relKnownAfter f today := by
  unfold releaseAfter relKnownAfter
  cases h : f.releaseDate with
  | none => simp
  | some d => simp

theorem releaseOnOrBefore_iff (f : Film) (today : Int) :
    releaseOnOrBefore f today = true ↔ relKnownOnOrBefore f today := by
  unfold releaseOnOrBefore relKnownOnOrBefore
  cases h : f.releaseDate with
  | none => simp
  | some d => simp

theorem hasFutureSeances_iff (st : Store) (f : Film) (now : Int) :
    hasFutureSeances st f.id now = true ↔ specHasFuture st f now := by
  unfold hasFutureSeances specHasFuture
  simp [List.any_eq_true]

/-- C2: Film.compute_status is exactly the spec's Status Deriver: release
date known and strictly after today gives UPCOMING (COMING_SOON); else a
showtime starting at or after the current instant gives NOW_SHOWING; else
a known release date today or earlier gives ARCHIVED; else UPCOMING. -/
theorem computeStatus_eq_specDeriveStatus (st : Store) (f : Film) (today now : Int) :
    computeStatus st f today now = specDeriveStatus st f today now := by
  unfold computeStatus specDeriveStatus
  by_cases h1 : relKnownAfter f today
  · simp [(releaseAfter_iff f today).mpr h1, h1]
  · have hb1 : releaseAfter f today = false :=
      Bool.eq_false_iff.mpr (fun hb => h1 ((releaseAfter_iff f today).mp hb))
    by_cases h2 : specHasFuture st f now
    · simp [hb1, h1, (hasFutureSeances_iff st f now).mpr h2, h2]
    · have hb2 : hasFutureSeances st f.id now = false :=
        Bool.eq_false_iff.mpr (fun hb => h2 ((hasFutureSeances_iff st f now).mp hb))
      by_cases h3 : relKnownOnOrBefore f today
      · simp [hb1, h1, hb2, h2, (releaseOnOrBefore_iff f today).mpr h3, h3]
      · have hb3 : releaseOnOrBefore f today = false :=
          Bool.eq_false_iff.mpr (fun hb => h3 ((releaseOnOrBefore_iff f today).mp hb))
        simp [hb1, h1, hb2, h2, hb3, h3]

theorem collides_iff (cfg : Config) (hid : Nat) (pk : Option Nat) (t e : Int) (s : Seance) :
    collides cfg hid pk t e s = true ↔
      (s.salleId = hid ∧ some s.id ≠ pk ∧ s.startsAt < e + cfg.turnoverMinutes ∧
        ∃ se, s.endsAt = some se ∧ t - cfg.turnoverMinutes < se) := by
  unfold collides
  cases h : s.endsAt with
  | none => simp
  | some se => simp [and_assoc]

theorem earliestByStart_cons_none (s : Seance) (rest : List Seance)
    (h : earliestByStart rest = none) : earliestByStart (s :: rest) = some s := by
  unfold earliestByStart
  rw [h]

theorem earliestByStart_cons_some (s : Seance) (rest : List Seance) (b : Seance)
    (h : earliestByStart rest = some b) :
    earliestByStart (s :: rest) = some (minStart s b) := by
  unfold earliestByStart
  rw [h]

theorem earliestByStart_eq_none (l : List Seance) :
    earliestByStart l = none ↔ l = [] := by
  cases l with
  | nil => simp [earliestByStart]
  | cons s rest =>
    constructor
    · intro h
      cases hr : earliestByStart rest with
      | none => rw [earliestByStart_cons_none s rest hr] at h; cases h
      | some b => rw [earliestByStart_cons_some s rest b hr] at h; cases h
    · intro h
      cases h

theorem earliestByStart_spec (l : List Seance) (x : Seance)
    (h : earliestByStart l = some x) :
    x ∈ l ∧ ∀ y ∈ l, x.startsAt ≤ y.startsAt := by
  induction l generalizing x with
  | nil => cases h
  | cons s rest ih =>
    cases hr : earliestByStart rest with
    | none =>
      rw [earliestByStart_cons_none s rest hr] at h
      cases h
      have hrest : rest = [] := (earliestByStart_eq_none rest).mp hr
      subst hrest
      exact ⟨List.mem_singleton_self s, by simp⟩
    | some b =>
      rw [earliestByStart_cons_some s rest b hr] at h
      cases h
      obtain ⟨hb, hmin⟩ := ih b hr
      unfold minStart
      by_cases hlt : b.startsAt < s.startsAt
      · rw [if_pos hlt]
        refine ⟨List.mem_cons_of_mem s hb, ?_⟩
        intro y hy
        rcases List.mem_cons.mp hy with hy | hy
        · subst hy; exact le_of_lt hlt
        · exact hmin y hy
      · rw [if_neg hlt]
        refine ⟨List.mem_cons_self s rest, ?_⟩
        intro y hy
        rcases List.mem_cons.mp hy with hy | hy
        · subst hy; exact le_refl _
        · exact le_trans (le_of_not_lt hlt) (hmin y hy)

theorem computeEndsAt_ok_inv (st : Store) (c : SeanceDraft) (fid : Nat) (t : Int)
    (e : Option Int) (hf : c.filmId = some fid) (ht : c.startsAt = some t)
    (h : computeEndsAt st c = .ok e) :
    ∃ film d, getFilm st fid = some film ∧ film.durationMinutes = some d ∧ d ≠ 0 ∧
      e = some (t + (d : Int)) := by
  simp only [computeEndsAt, hf] at h
  split at h
  next => cases h
  next film heq =>
    split at h
    next => cases h
    next => cases h
    next _ d hne hd =>
      rw [ht] at h
      cases h
      exact ⟨film, d, heq, hd, hne, rfl⟩

theorem computeEndsAt_complete (st : Store) (c : SeanceDraft) (fid : Nat) (t : Int)
    (film : Film) (d : Nat) (hf : c.filmId = some fid) (ht : c.startsAt = some t)
    (hfilm : getFilm st fid = some film) (hd : film.durationMinutes = some d) (hd0 : d ≠ 0) :
    computeEndsAt st c = .ok (some (t + (d : Int))) := by
  obtain ⟨k, rfl⟩ := Nat.exists_eq_succ_of_ne_zero hd0
  simp only [computeEndsAt, hf, ht, hfilm, hd]

theorem computeEndsAt_missing (st : Store) (c : SeanceDraft) (fid : Nat)
    (film : Film) (hf : c.filmId = some fid) (hfilm : getFilm st fid = some film)
    (hd : film.durationMinutes = none ∨ film.durationMinutes = some 0) :
    computeEndsAt st c = .error .missingDuration := by
  rcases hd with hd | hd <;> simp only [computeEndsAt, hf, hfilm, hd]

theorem seanceClean_complete (st : Store) (cfg : Config) (c : SeanceDraft)
    (fid hid : Nat) (t : Int) (film : Film) (d : Nat)
    (hf : c.filmId = some fid) (hh : c.salleId = some hid) (ht : c.startsAt = some t)
    (hfilm : getFilm st fid = some film) (hd : film.durationMinutes = some d) (hd0 : d ≠ 0) :
    seanceClean st cfg c =
      match earliestByStart (st.seances.filter (collides cfg hid c.pk t (t + (d : Int)))) with
      | some b => .error (.conflict b)
      | none => .ok { c with endsAt := some (t + (d : Int)) } := by
  simp only [seanceClean, cleanStep1, hf, ht,
    computeEndsAt_complete st c fid t film d hf ht hfilm hd hd0, hh]

theorem writeSeance_films (st : Store) (pk : Option Nat) (fid hid : Nat) (t : Int)
    (e : Option Int) : (writeSeance st pk fid hid t e).2.films = st.films := by
  cases pk with
  | none => rfl
  | some k =>
    simp only [writeSeance]
    split <;> rfl

theorem writeSeance_fst (st : Store) (pk : Option Nat) (fid hid : Nat) (t : Int)
    (e : Option Int) :
    (writeSeance st pk fid hid t e).1.filmId = fid ∧
    (writeSeance st pk fid hid t e).1.salleId = hid ∧
    (writeSeance st pk fid hid t e).1.startsAt = t ∧
    (writeSeance st pk fid hid t e).1.endsAt = e := by
  cases pk with
  | none => exact ⟨rfl, rfl, rfl, rfl⟩
  | some k =>
    simp only [writeSeance]
    split <;> exact ⟨rfl, rfl, rfl, rfl⟩

theorem writeSeance_mem (st : Store) (pk : Option Nat) (fid hid : Nat) (t : Int)
    (e : Option Int) :
    (writeSeance st pk fid hid t e).1 ∈ (writeSeance st pk fid hid t e).2.seances := by
  cases pk with
  | none => exact List.mem_append_right _ (List.mem_singleton_self _)
  | some k =>
    simp only [writeSeance]
    split
    next hany =>
      obtain ⟨x, hx, hxk⟩ := List.any_eq_true.mp hany
      exact List.mem_map.mpr ⟨x, hx, by rw [if_pos hxk]⟩
    next => exact List.mem_append_right _ (List.mem_singleton_self _)

theorem getFilm_congr_films (st st1 : Store) (fid : Nat) (h : st.films = st1.films) :
    getFilm st fid = getFilm st1 fid := by
  unfold getFilm
  rw [h]

theorem seanceClean_ok_inv (st : Store) (cfg : Config) (c : SeanceDraft) (c1 : SeanceDraft)
    (fid hid : Nat) (t : Int)
    (hf : c.filmId = some fid) (hh : c.salleId = some hid) (ht : c.startsAt = some t)
    (h : seanceClean st cfg c = .ok c1) :
    ∃ film d, getFilm st fid = some film ∧ film.durationMinutes = some d ∧ d ≠ 0 ∧
      earliestByStart (st.seances.filter (collides cfg hid c.pk t (t + (d : Int)))) = none ∧
      c1 = { c with endsAt := some (t + (d : Int)) } := by
  cases hce : computeEndsAt st c with
  | error e =>
    simp only [seanceClean, cleanStep1, hf, ht, hce] at h
    cases h
  | ok e =>
    obtain ⟨film, d, hfilm, hd, hd0, rfl⟩ := computeEndsAt_ok_inv st c fid t e hf ht hce
    simp only [seanceClean, cleanStep1, hf, ht, hce, hh] at h
    split at h
    · cases h
    · cases h
      exact ⟨film, d, hfilm, hd, hd0, by assumption, by rw [hf, hh, ht]⟩

theorem seanceSave_incomplete (st : Store) (cfg : Config) (today now : Int)
    (c : SeanceDraft) (h : c.filmId = none ∨ c.salleId = none ∨ c.startsAt = none) :
    seanceSave st cfg today now c = (.err .fieldRequired, st) := by
  unfold seanceSave
  cases hf : c.filmId with
  | none => rfl
  | some fid =>
    cases hh : c.salleId with
    | none => rfl
    | some hid =>
      cases ht : c.startsAt with
      | none => rfl
      | some t =>
        rcases h with h | h | h
        · rw [hf] at h; cases h
        · rw [hh] at h; cases h
        · rw [ht] at h; cases h

theorem seanceSave_clean_error (st : Store) (cfg : Config) (today now : Int)
    (c : SeanceDraft) (fid hid : Nat) (t : Int) (e : SaveError)
    (hf : c.filmId = some fid) (hh : c.salleId = some hid) (ht : c.startsAt = some t)
    (hc : seanceClean st cfg c = .error e) :
    seanceSave st cfg today now c = (.err e, st) := by
  simp only [seanceSave, hf, hh, ht, hc]

theorem seanceSave_clean_ok (st : Store) (cfg : Config) (today now : Int)
    (c : SeanceDraft) (fid hid : Nat) (t : Int) (c1 : SeanceDraft)
    (hf : c.filmId = some fid) (hh : c.salleId = some hid) (ht : c.startsAt = some t)
    (hc : seanceClean st cfg c = .ok c1) :
    seanceSave st cfg today now c =
      (.ok (writeSeance st c.pk fid hid t c1.endsAt).1,
        match getFilm (writeSeance st c.pk fid hid t c1.endsAt).2 fid with
        | some film => (refreshStatus (writeSeance st c.pk fid hid t c1.endsAt).2 film today now).2
        | none => (writeSeance st c.pk fid hid t c1.endsAt).2) := by
  simp only [seanceSave, hf, hh, ht, hc]

theorem seanceSave_ok_inv (st : Store) (cfg : Config) (today now : Int) (c : SeanceDraft)
    (s : Seance) (st1 : Store) (h : seanceSave st cfg today now c = (.ok s, st1)) :
    ∃ fid hid t film d,
      c.filmId = some fid ∧ c.salleId = some hid ∧ c.startsAt = some t ∧
      getFilm st fid = some film ∧ film.durationMinutes = some d ∧ d ≠ 0 ∧
      earliestByStart (st.seances.filter (collides cfg hid c.pk t (t + (d : Int)))) = none ∧
      s = (writeSeance st c.pk fid hid t (some (t + (d : Int)))).1 ∧
      st1 = (refreshStatus (writeSeance st c.pk fid hid t (some (t + (d : Int)))).2 film today now).2 := by
  cases hf : c.filmId with
  | none =>
    rw [seanceSave_incomplete st cfg today now c (Or.inl hf)] at h
    simp at h
  | some fid =>
    cases hh : c.salleId with
    | none =>
      rw [seanceSave_incomplete st cfg today now c (Or.inr (Or.inl hh))] at h
      simp at h
    | some hid =>
      cases ht : c.startsAt with
      | none =>
        rw [seanceSave_incomplete st cfg today now c (Or.inr (Or.inr ht))] at h
        simp at h
      | some t =>
        cases hc : seanceClean st cfg c with
        | error e =>
          rw [seanceSave_clean_error st cfg today now c fid hid t e hf hh ht hc] at h
          simp at h
        | ok c1 =>
          obtain ⟨film, d, hfilm, hd, hd0, hearliest, hc1⟩ :=
            seanceClean_ok_inv st cfg c c1 fid hid t hf hh ht hc
          rw [seanceSave_clean_ok st cfg today now c fid hid t c1 hf hh ht hc] at h
          rw [hc1] at h
          have hgf : getFilm (writeSeance st c.pk fid hid t (some (t + (d : Int)))).2 fid
              = some film := by
            rw [← getFilm_congr_films st _ fid (writeSeance_films st c.pk fid hid t _).symm]
            exact hfilm
          simp only [hgf] at h
          obtain ⟨h1, h2⟩ := Prod.mk.injEq .. |>.mp h
          cases h1
          exact ⟨fid, hid, t, film, d, rfl, rfl, rfl, hfilm, hd, hd0, hearliest, rfl, h2.symm⟩

theorem seanceSave_err_snd (st : Store) (cfg : Config) (today now : Int) (c : SeanceDraft)
    (e : SaveError) (h : (seanceSave st cfg today now c).1 = .err e) :
    (seanceSave st cfg today now c).2 = st := by
  cases hf : c.filmId with
  | none => rw [seanceSave_incomplete st cfg today now c (Or.inl hf)]
  | some fid =>
    cases hh : c.salleId with
    | none => rw [seanceSave_incomplete st cfg today now c (Or.inr (Or.inl hh))]
    | some hid =>
      cases ht : c.startsAt with
      | none => rw [seanceSave_incomplete st cfg today now c (Or.inr (Or.inr ht))]
      | some t =>
        cases hc : seanceClean st cfg c with
        | error e1 => rw [seanceSave_clean_error st cfg today now c fid hid t e1 hf hh ht hc]
        | ok c1 =>
          rw [seanceSave_clean_ok st cfg today now c fid hid t c1 hf hh ht hc] at h
          simp at h

theorem computeEndsAt_endsAt_irrel (st : Store) (c : SeanceDraft) (v : Option Int) :
    computeEndsAt st { c with endsAt := v } = computeEndsAt st c := rfl

theorem seanceClean_endsAt_irrel (st : Store) (cfg : Config) (c : SeanceDraft)
    (v : Option Int) (fid : Nat) (t : Int)
    (hf : c.filmId = some fid) (ht : c.startsAt = some t) :
    seanceClean st cfg { c with endsAt := v } = seanceClean st cfg c := by
  have h1 : computeEndsAt st
      ⟨c.pk, some fid, c.salleId, some t, v⟩ = computeEndsAt st c := by
    rw [← hf, ← ht]
    exact computeEndsAt_endsAt_irrel st c v
  simp only [seanceClean, cleanStep1, hf, ht]
  rw [h1]

theorem seanceSave_endsAt_irrel (st : Store) (cfg : Config) (today now : Int)
    (c : SeanceDraft) (v : Option Int) :
    seanceSave st cfg today now { c with endsAt := v } = seanceSave st cfg today now c := by
  cases hf : c.filmId with
  | none =>
    rw [seanceSave_incomplete st cfg today now c (Or.inl hf),
      seanceSave_incomplete st cfg today now _ (Or.inl rfl)]
  | some fid =>
    cases hh : c.salleId with
    | none =>
      rw [seanceSave_incomplete st cfg today now c (Or.inr (Or.inl hh)),
        seanceSave_incomplete st cfg today now _ (Or.inr (Or.inl rfl))]
    | some hid =>
      cases ht : c.startsAt with
      | none =>
        rw [seanceSave_incomplete st cfg today now c (Or.inr (Or.inr ht)),
          seanceSave_incomplete st cfg today now _ (Or.inr (Or.inr rfl))]
      | some t =>
        have h2 : seanceClean st cfg ⟨c.pk, some fid, some hid, some t, v⟩
            = seanceClean st cfg c := by
          rw [← hf, ← hh, ← ht]
          exact seanceClean_endsAt_irrel st cfg c v fid t hf ht
        simp only [seanceSave, hf, hh, ht]
        rw [h2]

theorem find_map_pres (l : List Film) (fid0 : Nat) (g : Film → Film)
    (hid : ∀ f, (g f).id = f.id) :
    (l.map g).find? (fun f => f.id == fid0) = (l.find? (fun f => f.id == fid0)).map g := by
  induction l with
  | nil => rfl
  | cons a l ih =>
    by_cases hb : (a.id == fid0) = true
    · simp [List.find?_cons, hid a, hb]
    · simp only [List.map_cons, List.find?_cons, hid a]
      rw [Bool.eq_false_iff.mpr hb]
      exact ih

theorem getFilm_map (st : Store) (fid0 : Nat) (g : Film → Film)
    (hid : ∀ f, (g f).id = f.id) :
    getFilm { st with films := st.films.map g } fid0 = (getFilm st fid0).map g := by
  unfold getFilm
  exact find_map_pres st.films fid0 g hid

theorem updFn_id (fid : Nat) (v : Status) (f : Film) :
    (if f.id == fid then { f with status := v } else f).id = f.id := by
  split <;> rfl

theorem getFilm_updateFilmStatus_self (st : Store) (fid : Nat) (v : Status) (f : Film)
    (hf : getFilm st fid = some f) :
    getFilm (updateFilmStatus st fid v) fid = some { f with status := v } := by
  have h1 : getFilm (updateFilmStatus st fid v) fid
      = (getFilm st fid).map (fun f => if f.id == fid then { f with status := v } else f) :=
    getFilm_map st fid _ (updFn_id fid v)
  rw [h1, hf]
  have hfind : st.films.find? (fun g => g.id == fid) = some f := hf
  have hp := List.find?_some hfind
  have hpe : f.id = fid := by
    have := hp
    simpa using this
  simp [hpe]

theorem filmData_updFn (fid : Nat) (v : Status) (f : Film) :
    filmData (if f.id == fid then { f with status := v } else f) = filmData f := by
  split <;> rfl

theorem getFilm_updateFilmStatus_data (st : Store) (fid fid0 : Nat) (v : Status) :
    (getFilm (updateFilmStatus st fid v) fid0).map filmData
      = (getFilm st fid0).map filmData := by
  unfold updateFilmStatus
  rw [getFilm_map st fid0 _ (updFn_id fid v), Option.map_map]
  cases getFilm st fid0 with
  | none => rfl
  | some f => exact congrArg some (filmData_updFn fid v f)

theorem refreshStatus_fst (st : Store) (f : Film) (today now : Int) :
    (refreshStatus st f today now).1 = computeStatus st f today now := by
  simp only [refreshStatus]
  split <;> rfl

theorem refreshStatus_seances (st : Store) (f : Film) (today now : Int) :
    (refreshStatus st f today now).2.seances = st.seances := by
  simp only [refreshStatus]
  split <;> rfl

theorem refreshStatus_getFilm_data (st : Store) (f : Film) (today now : Int) (fid0 : Nat) :
    (getFilm (refreshStatus st f today now).2 fid0).map filmData
      = (getFilm st fid0).map filmData := by
  simp only [refreshStatus]
  split
  · exact getFilm_updateFilmStatus_data st f.id fid0 _
  · rfl

theorem refreshStatus_getFilm_self (st : Store) (f : Film) (today now : Int)
    (hf : getFilm st f.id = some f) :
    getFilm (refreshStatus st f today now).2 f.id
      = some { f with status := computeStatus st f today now } := by
  simp only [refreshStatus]
  split
  next => exact getFilm_updateFilmStatus_self st f.id _ f hf
  next hne =>
    have hst : f.status = computeStatus st f today now := not_ne_iff.mp hne
    rw [hf, ← hst]

theorem computeStatus_congr (st st1 : Store) (f f1 : Film) (today now : Int)
    (hs : st.seances = st1.seances) (hid : f.id = f1.id)
    (hrel : f.releaseDate = f1.releaseDate) :
    computeStatus st f today now = computeStatus st1 f1 today now := by
  unfold computeStatus hasFutureSeances releaseAfter releaseOnOrBefore
  rw [hs, hid, hrel]

theorem storeLE_refl (st : Store) : storeLE st st :=
  ⟨fun _ hs => hs, fun _ => rfl⟩

theorem storeLE_trans (a b c : Store) (h1 : storeLE a b) (h2 : storeLE b c) :
    storeLE a c :=
  ⟨fun s hs => h2.1 s (h1.1 s hs), fun fid => (h1.2 fid).trans (h2.2 fid)⟩

theorem storeLE_getFilm_none (st st1 : Store) (fid : Nat) (hle : storeLE st st1)
    (hgf : getFilm st fid = none) : getFilm st1 fid = none := by
  have hdata := hle.2 fid
  rw [hgf] at hdata
  cases hg1 : getFilm st1 fid with
  | none => rfl
  | some f1 => rw [hg1] at hdata; cases hdata

theorem storeLE_getFilm_some (st st1 : Store) (fid : Nat) (film : Film)
    (hle : storeLE st st1) (hgf : getFilm st fid = some film) :
    ∃ film1, getFilm st1 fid = some film1 ∧ film1.id = film.id ∧
      film1.durationMinutes = film.durationMinutes ∧
      film1.releaseDate = film.releaseDate := by
  have hdata := hle.2 fid
  rw [hgf] at hdata
  cases hg1 : getFilm st1 fid with
  | none => rw [hg1] at hdata; cases hdata
  | some f1 =>
    rw [hg1] at hdata
    have hfd : filmData film = filmData f1 := by
      have := hdata
      simp only [Option.map_some'] at this
      exact Option.some.inj this
    unfold filmData at hfd
    have h1 : film.id = f1.id := congrArg Prod.fst hfd
    have h23 := congrArg Prod.snd hfd
    have h2 : film.durationMinutes = f1.durationMinutes := congrArg Prod.fst h23
    have h3 : film.releaseDate = f1.releaseDate := congrArg Prod.snd h23
    exact ⟨f1, rfl, h1.symm, h2.symm, h3.symm⟩

theorem refreshStatus_storeLE (st : Store) (f : Film) (today now : Int) :
    storeLE st (refreshStatus st f today now).2 := by
  constructor
  · intro s hs
    rw [refreshStatus_seances]
    exact hs
  · intro fid0
    exact (refreshStatus_getFilm_data st f today now fid0).symm

theorem writeSeance_none_storeLE (st : Store) (fid hid : Nat) (t : Int) (e : Option Int) :
    storeLE st (writeSeance st none fid hid t e).2 := by
  constructor
  · intro s hs
    exact List.mem_append_left _ hs
  · intro fid0
    rw [getFilm_congr_films st (writeSeance st none fid hid t e).2 fid0
      (writeSeance_films st none fid hid t e).symm]

theorem seanceSave_storeLE (st : Store) (cfg : Config) (today now : Int) (c : SeanceDraft)
    (hpk : c.pk = none) : storeLE st (seanceSave st cfg today now c).2 := by
  cases houtcome : (seanceSave st cfg today now c).1 with
  | err e =>
    rw [seanceSave_err_snd st cfg today now c e houtcome]
    exact storeLE_refl st
  | ok s =>
    have h : seanceSave st cfg today now c = (.ok s, (seanceSave st cfg today now c).2) :=
      Prod.ext_iff.mpr ⟨houtcome, rfl⟩
    obtain ⟨fid, hid, t, film, d, _, _, _, _, _, _, _, _, hst1⟩ :=
      seanceSave_ok_inv st cfg today now c s _ h
    rw [hst1, hpk]
    exact storeLE_trans _ _ _ (writeSeance_none_storeLE st fid hid t _)
      (refreshStatus_storeLE _ film today now)

theorem tripleExists_mono (st st1 : Store) (fid hid : Nat) (t : Int)
    (hle : storeLE st st1) (h : tripleExists st fid hid t = true) :
    tripleExists st1 fid hid t = true := by
  unfold tripleExists at h ⊢
  obtain ⟨s, hs, hp⟩ := List.any_eq_true.mp h
  exact List.any_eq_true.mpr ⟨s, hle.1 s hs, hp⟩

theorem seanceClean_error_inv (st : Store) (cfg : Config) (c : SeanceDraft)
    (fid hid : Nat) (t : Int) (e : SaveError)
    (hf : c.filmId = some fid) (hh : c.salleId = some hid) (ht : c.startsAt = some t)
    (h : seanceClean st cfg c = .error e) :
    (getFilm st fid = none ∧ e = .filmNotFound) ∨
    (∃ film, getFilm st fid = some film ∧
      (film.durationMinutes = none ∨ film.durationMinutes = some 0) ∧
      e = .missingDuration) ∨
    (∃ film d b, getFilm st fid = some film ∧ film.durationMinutes = some d ∧ d ≠ 0 ∧
      earliestByStart (st.seances.filter (collides cfg hid c.pk t (t + (d : Int)))) = some b ∧
      e = .conflict b) := by
  cases hfilm : getFilm st fid with
  | none =>
    have hce : computeEndsAt st c = .error .filmNotFound := by
      simp only [computeEndsAt, hf, hfilm]
    simp only [seanceClean, cleanStep1, hf, ht, hce] at h
    cases h
    exact Or.inl ⟨rfl, rfl⟩
  | some film =>
    cases hdm : film.durationMinutes with
    | none =>
      have hce := computeEndsAt_missing st c fid film hf hfilm (Or.inl hdm)
      simp only [seanceClean, cleanStep1, hf, ht, hce] at h
      cases h
      exact Or.inr (Or.inl ⟨film, rfl, Or.inl hdm, rfl⟩)
    | some d =>
      cases d with
      | zero =>
        have hce := computeEndsAt_missing st c fid film hf hfilm (Or.inr hdm)
        simp only [seanceClean, cleanStep1, hf, ht, hce] at h
        cases h
        exact Or.inr (Or.inl ⟨film, rfl, Or.inr hdm, rfl⟩)
      | succ k =>
        rw [seanceClean_complete st cfg c fid hid t film (k + 1) hf hh ht hfilm hdm
          (Nat.succ_ne_zero k)] at h
        split at h
        · cases h
          next b hb =>
            exact Or.inr (Or.inr ⟨film, k + 1, b, rfl, hdm, Nat.succ_ne_zero k, hb, rfl⟩)
        · cases h

theorem seanceSave_err_mono (st st1 : Store) (cfg : Config) (today now : Int)
    (c : SeanceDraft) (e : SaveError) (hle : storeLE st st1)
    (h : (seanceSave st cfg today now c).1 = .err e) :
    ∃ e1, (seanceSave st1 cfg today now c).1 = .err e1 := by
  cases hf : c.filmId with
  | none =>
    exact ⟨.fieldRequired, by rw [seanceSave_incomplete st1 cfg today now c (Or.inl hf)]⟩
  | some fid =>
    cases hh : c.salleId with
    | none =>
      exact ⟨.fieldRequired,
        by rw [seanceSave_incomplete st1 cfg today now c (Or.inr (Or.inl hh))]⟩
    | some hid =>
      cases ht : c.startsAt with
      | none =>
        exact ⟨.fieldRequired,
          by rw [seanceSave_incomplete st1 cfg today now c (Or.inr (Or.inr ht))]⟩
      | some t =>
        cases hc : seanceClean st cfg c with
        | ok c1 =>
          rw [seanceSave_clean_ok st cfg today now c fid hid t c1 hf hh ht hc] at h
          simp at h
        | error e0 =>
          rcases seanceClean_error_inv st cfg c fid hid t e0 hf hh ht hc with
            ⟨hgf, _⟩ | ⟨film, hgf, hdm, _⟩ | ⟨film, d, b, hgf, hdm, hd0, hearly, _⟩
          · have hgf1 := storeLE_getFilm_none st st1 fid hle hgf
            have hce1 : computeEndsAt st1 c = .error .filmNotFound := by
              simp only [computeEndsAt, hf, hgf1]
            have hc1 : seanceClean st1 cfg c = .error .filmNotFound := by
              simp only [seanceClean, cleanStep1, hf, ht, hce1]
            exact ⟨.filmNotFound,
              by rw [seanceSave_clean_error st1 cfg today now c fid hid t _ hf hh ht hc1]⟩
          · obtain ⟨film1, hgf1, _, hdur1, _⟩ := storeLE_getFilm_some st st1 fid film hle hgf
            have hce1 : computeEndsAt st1 c = .error .missingDuration :=
              computeEndsAt_missing st1 c fid film1 hf hgf1 (by rw [hdur1]; exact hdm)
            have hc1 : seanceClean st1 cfg c = .error .missingDuration := by
              simp only [seanceClean, cleanStep1, hf, ht, hce1]
            exact ⟨.missingDuration,
              by rw [seanceSave_clean_error st1 cfg today now c fid hid t _ hf hh ht hc1]⟩
          · obtain ⟨film1, hgf1, _, hdur1, _⟩ := storeLE_getFilm_some st st1 fid film hle hgf
            obtain ⟨hbmem, _⟩ := earliestByStart_spec _ b hearly
            obtain ⟨hbseance, hbcol⟩ := List.mem_filter.mp hbmem
            have hbmem1 : b ∈ st1.seances.filter (collides cfg hid c.pk t (t + (d : Int))) :=
              List.mem_filter.mpr ⟨hle.1 b hbseance, hbcol⟩
            cases he1 : earliestByStart (st1.seances.filter (collides cfg hid c.pk t (t + (d : Int)))) with
            | none =>
              rw [(earliestByStart_eq_none _).mp he1] at hbmem1
              cases hbmem1
            | some b1 =>
              have hc1 : seanceClean st1 cfg c = .error (.conflict b1) := by
                rw [seanceClean_complete st1 cfg c fid hid t film1 d hf hh ht hgf1
                  (by rw [hdur1]; exact hdm) hd0, he1]
              exact ⟨.conflict b1,
                by rw [seanceSave_clean_error st1 cfg today now c fid hid t _ hf hh ht hc1]⟩

/-- C1: for a complete candidate whose film has a usable duration, the
save reports a scheduling conflict exactly when some other showtime of
the same hall — excluding the row being updated — satisfies
existing.starts_at < candidate.ends_at + buffer and
existing.ends_at > candidate.starts_at - buffer, where candidate.ends_at
is starts_at plus the film's duration. -/
theorem seanceSave_conflict_iff (st : Store) (cfg : Config) (today now : Int)
    (c : SeanceDraft) (fid hid : Nat) (t : Int) (film : Film) (d : Nat)
    (hf : c.filmId = some fid) (hh : c.salleId = some hid) (ht : c.startsAt = some t)
    (hfilm : getFilm st fid = some film) (hd : film.durationMinutes = some d)
    (hd0 : d ≠ 0) :
    (∃ b, (seanceSave st cfg today now c).1 = .err (.conflict b)) ↔
      ∃ s ∈ st.seances, s.salleId = hid ∧ some s.id ≠ c.pk ∧
        s.startsAt < (t + (d : Int)) + cfg.turnoverMinutes ∧
        ∃ se, s.endsAt = some se ∧ t - cfg.turnoverMinutes < se := by
  have hcc := seanceClean_complete st cfg c fid hid t film d hf hh ht hfilm hd hd0
  constructor
  · rintro ⟨b, hb⟩
    cases he : earliestByStart (st.seances.filter (collides cfg hid c.pk t (t + (d : Int)))) with
    | none =>
      rw [he] at hcc
      rw [seanceSave_clean_ok st cfg today now c fid hid t _ hf hh ht hcc] at hb
      simp at hb
    | some b1 =>
      obtain ⟨hmem, _⟩ := earliestByStart_spec _ b1 he
      obtain ⟨hs, hcol⟩ := List.mem_filter.mp hmem
      obtain ⟨h1, h2, h3, se, h4, h5⟩ := (collides_iff cfg hid c.pk t _ b1).mp hcol
      exact ⟨b1, hs, h1, h2, h3, se, h4, h5⟩
  · rintro ⟨s, hs, h1, h2, h3, se, h4, h5⟩
    have hcol : collides cfg hid c.pk t (t + (d : Int)) s = true :=
      (collides_iff cfg hid c.pk t _ s).mpr ⟨h1, h2, h3, se, h4, h5⟩
    have hmem : s ∈ st.seances.filter (collides cfg hid c.pk t (t + (d : Int))) :=
      List.mem_filter.mpr ⟨hs, hcol⟩
    cases he : earliestByStart (st.seances.filter (collides cfg hid c.pk t (t + (d : Int)))) with
    | none =>
      rw [(earliestByStart_eq_none _).mp he] at hmem
      cases hmem
    | some b1 =>
      rw [he] at hcc
      exact ⟨b1, by rw [seanceSave_clean_error st cfg today now c fid hid t _ hf hh ht hcc]⟩

/-- C1 witness, the spec scenario: against a 10:00–12:00 showtime with a
30-minute buffer, a 12:15 candidate in the same hall conflicts and a
12:31 candidate does not (minutes: 600–720, 735, 751). -/
theorem seanceSave_conflict_iff_witness :
    (∃ b, (seanceSave exStore exCfg 0 0 (exDraft 1 735)).1 = .err (.conflict b)) ∧
      ¬(∃ b, (seanceSave exStore exCfg 0 0 (exDraft 1 751)).1 = .err (.conflict b)) := by
  constructor
  · exact (seanceSave_conflict_iff exStore exCfg 0 0 (exDraft 1 735) 1 1 735 exFilm 120
      rfl rfl rfl rfl rfl (by decide)).mpr
      ⟨exSeance, by decide, rfl, by decide, by decide, 720, rfl, by decide⟩
  · intro hcontra
    rcases (seanceSave_conflict_iff exStore exCfg 0 0 (exDraft 1 751) 1 1 751 exFilm 120
      rfl rfl rfl rfl rfl (by decide)).mp hcontra with ⟨s, hs, _, _, _, se, h4, h5⟩
    have hs1 : s ∈ [exSeance] := hs
    rcases List.mem_singleton.mp hs1 with rfl
    have h4a : some (720 : Int) = some se := h4
    cases Option.some.inj h4a
    exact absurd h5 (by decide)

/-- C3: whenever a save stores a showtime, its ends_at was recomputed in
that same save as starts_at plus the referenced film's duration, and the
caller-supplied ends_at is never used: a draft differing only in ends_at
saves to the identical outcome and store. -/
theorem seanceSave_endsAt_recomputed (st : Store) (cfg : Config) (today now : Int)
    (c : SeanceDraft) (s : Seance) (st1 : Store)
    (h : seanceSave st cfg today now c = (.ok s, st1)) :
    (∃ film d, getFilm st s.filmId = some film ∧ film.durationMinutes = some d ∧ d ≠ 0 ∧
      s.endsAt = some (s.startsAt + (d : Int)) ∧ s ∈ st1.seances) ∧
    (∀ v, seanceSave st cfg today now { c with endsAt := v } = (.ok s, st1)) := by
  obtain ⟨fid, hid, t, film, d, hf, hh, ht, hfilm, hd, hd0, hearly, hs, hst1⟩ :=
    seanceSave_ok_inv st cfg today now c s st1 h
  constructor
  · refine ⟨film, d, ?_, hd, hd0, ?_, ?_⟩
    · rw [hs, (writeSeance_fst st c.pk fid hid t _).1]
      exact hfilm
    · rw [hs, (writeSeance_fst st c.pk fid hid t _).2.2.2,
        (writeSeance_fst st c.pk fid hid t _).2.2.1]
    · rw [hst1, hs, refreshStatus_seances]
      exact writeSeance_mem st c.pk fid hid t _
  · intro v
    rw [seanceSave_endsAt_irrel st cfg today now c v]
    exact h

/-- C3 witness: a draft carrying a bogus caller ends_at of minute 999
stores a 12:31 showtime whose ends_at is 12:31 plus 120 minutes. -/
theorem seanceSave_endsAt_recomputed_witness :
    seanceSave exStore exCfg 0 0 ⟨none, some 1, some 1, some 751, some 999⟩
      = (.ok ⟨2, 1, 1, 751, some 871⟩, exStoreAfter) :=
  (seanceSave_endsAt_recomputed exStore exCfg 0 0 ⟨none, some 1, some 1, some 751, none⟩
    ⟨2, 1, 1, 751, some 871⟩ exStoreAfter (by decide)).2 (some 999)

/-- C6: a failing single-showtime save raises its typed failure before
any write — the store comes back unchanged — and in particular a film
without a usable duration fails with the missing-duration error. -/
theorem seanceSave_error_before_write (st : Store) (cfg : Config) (today now : Int)
    (c : SeanceDraft) :
    (∀ e, (seanceSave st cfg today now c).1 = .err e →
      (seanceSave st cfg today now c).2 = st) ∧
    (∀ fid film, c.filmId = some fid → c.salleId.isSome = true → c.startsAt.isSome = true →
      getFilm st fid = some film →
      (film.durationMinutes = none ∨ film.durationMinutes = some 0) →
      (seanceSave st cfg today now c).1 = .err .missingDuration) := by
  constructor
  · exact fun e h => seanceSave_err_snd st cfg today now c e h
  · intro fid film hf hhs hts hfilm hdm
    obtain ⟨hid, hh⟩ := Option.isSome_iff_exists.mp hhs
    obtain ⟨t, ht⟩ := Option.isSome_iff_exists.mp hts
    have hce := computeEndsAt_missing st c fid film hf hfilm hdm
    have hc : seanceClean st cfg c = .error .missingDuration := by
      simp only [seanceClean, cleanStep1, hf, ht, hce]
    rw [seanceSave_clean_error st cfg today now c fid hid t _ hf hh ht hc]

/-- C6 witness: saving a showtime for the film with no duration fails
with the missing-duration error and leaves the store untouched. -/
theorem seanceSave_error_before_write_witness :
    (seanceSave exStore exCfg 0 0 (exDraft 2 600)).1 = .err .missingDuration ∧
    (seanceSave exStore exCfg 0 0 (exDraft 2 600)).2 = exStore := by
  have hmd := (seanceSave_error_before_write exStore exCfg 0 0 (exDraft 2 600)).2 2 exFilmNoDur
    rfl rfl rfl rfl (Or.inl rfl)
  exact ⟨hmd, (seanceSave_error_before_write exStore exCfg 0 0 (exDraft 2 600)).1 _ hmd⟩

/-- C8 counterexample: two colliding showtimes share the start time
10:00, and the save reports the one sitting first in the table — id 2 —
although a colliding showtime with the lower identity 1 starts just as
early, refuting the lowest-identity tie-break. -/
theorem conflict_tiebreak_counterexample :
    (seanceSave cexStore exCfg 0 0 (exDraft 1 735)).1 = .err (.conflict cexSeanceA) ∧
      cexSeanceB ∈ cexStore.seances ∧
      collides exCfg 1 none 735 (735 + ((120 : Nat) : Int)) cexSeanceB = true ∧
      cexSeanceB.startsAt = cexSeanceA.startsAt ∧ cexSeanceB.id < cexSeanceA.id := by
  exact ⟨by decide, by decide, by decide, rfl, by decide⟩

/-- C8 (amended): the reported collision is a colliding showtime of
minimal starts_at; among equal start times it is the first in store
order, with no tie-break on identity. -/
theorem conflict_reported_is_earliest (st : Store) (cfg : Config) (today now : Int)
    (c : SeanceDraft) (fid hid : Nat) (t : Int) (film : Film) (d : Nat) (b : Seance)
    (hf : c.filmId = some fid) (hh : c.salleId = some hid) (ht : c.startsAt = some t)
    (hfilm : getFilm st fid = some film) (hd : film.durationMinutes = some d)
    (hd0 : d ≠ 0)
    (h : (seanceSave st cfg today now c).1 = .err (.conflict b)) :
    b ∈ st.seances ∧ collides cfg hid c.pk t (t + (d : Int)) b = true ∧
      ∀ s ∈ st.seances, collides cfg hid c.pk t (t + (d : Int)) s = true →
        b.startsAt ≤ s.startsAt := by
  have hcc := seanceClean_complete st cfg c fid hid t film d hf hh ht hfilm hd hd0
  cases he : earliestByStart (st.seances.filter (collides cfg hid c.pk t (t + (d : Int)))) with
  | none =>
    rw [he] at hcc
    rw [seanceSave_clean_ok st cfg today now c fid hid t _ hf hh ht hcc] at h
    simp at h
  | some b1 =>
    rw [he] at hcc
    rw [seanceSave_clean_error st cfg today now c fid hid t _ hf hh ht hcc] at h
    have hb : b1 = b := by simpa using h
    subst hb
    obtain ⟨hmem, hmin⟩ := earliestByStart_spec _ b1 he
    obtain ⟨hsm, hcol⟩ := List.mem_filter.mp hmem
    refine ⟨hsm, hcol, ?_⟩
    intro s hsmem hscol
    exact hmin s (List.mem_filter.mpr ⟨hsmem, hscol⟩)

/-- C8 amended witness: in the two-colliding-rows store the reported
conflict (id 2) indeed starts no later than any colliding showtime. -/
theorem conflict_reported_is_earliest_witness :
    cexSeanceA ∈ cexStore.seances ∧
      collides exCfg 1 none 735 (735 + ((120 : Nat) : Int)) cexSeanceA = true ∧
      ∀ s ∈ cexStore.seances, collides exCfg 1 none 735 (735 + ((120 : Nat) : Int)) s = true →
        cexSeanceA.startsAt ≤ s.startsAt :=
  conflict_reported_is_earliest cexStore exCfg 0 0 (exDraft 1 735) 1 1 735 exFilm 120
    cexSeanceA rfl rfl rfl rfl rfl (by decide) (by decide)

theorem getFilm_setFilmDuration_self (st : Store) (fid : Nat) (v : Option Nat) (film : Film)
    (hf : getFilm st fid = some film) :
    getFilm (setFilmDuration st fid v) fid = some { film with durationMinutes := v } := by
  unfold setFilmDuration
  rw [getFilm_map st fid _ (fun f => by split <;> rfl), hf]
  have hfind : st.films.find? (fun g => g.id == fid) = some film := hf
  have hp := List.find?_some hfind
  have hpe : film.id = fid := by
    have := hp
    simpa using this
  simp [hpe]

/-- C10: a stored duration of 0 minutes behaves exactly like an absent
duration: the save fails with the missing-duration error, just as it does
against the store in which that film's duration has been erased. -/
theorem zero_duration_like_missing (st : Store) (cfg : Config) (today now : Int)
    (c : SeanceDraft) (fid : Nat) (film : Film)
    (hf : c.filmId = some fid) (hhs : c.salleId.isSome = true)
    (hts : c.startsAt.isSome = true)
    (hfilm : getFilm st fid = some film) (hd : film.durationMinutes = some 0) :
    (seanceSave st cfg today now c).1 = .err .missingDuration ∧
    (seanceSave (setFilmDuration st fid none) cfg today now c).1 = .err .missingDuration := by
  obtain ⟨hid, hh⟩ := Option.isSome_iff_exists.mp hhs
  obtain ⟨t, ht⟩ := Option.isSome_iff_exists.mp hts
  constructor
  · have hce := computeEndsAt_missing st c fid film hf hfilm (Or.inr hd)
    have hc : seanceClean st cfg c = .error .missingDuration := by
      simp only [seanceClean, cleanStep1, hf, ht, hce]
    rw [seanceSave_clean_error st cfg today now c fid hid t _ hf hh ht hc]
  · have hgf1 := getFilm_setFilmDuration_self st fid none film hfilm
    have hce := computeEndsAt_missing (setFilmDuration st fid none) c fid
      { film with durationMinutes := none } hf hgf1 (Or.inl rfl)
    have hc : seanceClean (setFilmDuration st fid none) cfg c = .error .missingDuration := by
      simp only [seanceClean, cleanStep1, hf, ht, hce]
    rw [seanceSave_clean_error (setFilmDuration st fid none) cfg today now c fid hid t _
      hf hh ht hc]

/-- C10 witness: the film stored with duration 0 rejects a showtime with
the missing-duration error, exactly as with its duration erased. -/
theorem zero_duration_like_missing_witness :
    (seanceSave exStore exCfg 0 0 (exDraft 3 600)).1 = .err .missingDuration ∧
    (seanceSave (setFilmDuration exStore 3 none) exCfg 0 0 (exDraft 3 600)).1
      = .err .missingDuration :=
  zero_duration_like_missing exStore exCfg 0 0 (exDraft 3 600) 3 exFilmZeroDur
    rfl rfl rfl rfl rfl

theorem refreshStatus_noop (st : Store) (f : Film) (today now : Int)
    (h : f.status = computeStatus st f today now) :
    refreshStatus st f today now = (computeStatus st f today now, st) := by
  simp [refreshStatus, ← h]

/-- C9: refresh_status returns the recomputed status, touches no seance
row and no film field other than status, writes nothing at all when the
stored status already matches, and a second refresh over the unchanged
data is a no-op returning the same pair. -/
theorem refreshStatus_frame_idempotent (st : Store) (f : Film) (today now : Int) :
    (refreshStatus st f today now).1 = computeStatus st f today now ∧
    (refreshStatus st f today now).2.seances = st.seances ∧
    (refreshStatus st f today now).2.films.map filmData = st.films.map filmData ∧
    (∀ g ∈ st.films, g.id ≠ f.id → g ∈ (refreshStatus st f today now).2.films) ∧
    (f.status = computeStatus st f today now → (refreshStatus st f today now).2 = st) ∧
    (getFilm st f.id = some f →
      ∀ f1, getFilm (refreshStatus st f today now).2 f.id = some f1 →
        refreshStatus (refreshStatus st f today now).2 f1 today now
          = (computeStatus st f today now, (refreshStatus st f today now).2)) := by
  refine ⟨refreshStatus_fst st f today now, refreshStatus_seances st f today now, ?_, ?_, ?_, ?_⟩
  · simp only [refreshStatus]
    split
    · unfold updateFilmStatus
      show (st.films.map _).map filmData = st.films.map filmData
      rw [List.map_map]
      have hfn : filmData ∘ (fun g : Film =>
          if g.id == f.id then { g with status := computeStatus st f today now } else g)
          = filmData := funext (filmData_updFn f.id _)
      rw [hfn]
    · rfl
  · intro g hg hne
    simp only [refreshStatus]
    split
    · unfold updateFilmStatus
      refine List.mem_map.mpr ⟨g, hg, ?_⟩
      rw [if_neg]
      intro hb
      exact hne (by simpa using hb)
    · exact hg
  · intro heq
    simp [refreshStatus, ← heq]
  · intro hgf f1 hf1
    rw [refreshStatus_getFilm_self st f today now hgf] at hf1
    have hf1e : f1 = { f with status := computeStatus st f today now } :=
      (Option.some.inj hf1).symm
    subst hf1e
    have hcs : computeStatus (refreshStatus st f today now).2
        { f with status := computeStatus st f today now } today now
        = computeStatus st f today now :=
      computeStatus_congr _ st _ f today now (refreshStatus_seances st f today now) rfl rfl
    rw [refreshStatus_noop _ _ today now (by rw [hcs]), hcs]

/-- C9 witness: refreshing the example film persists NOW_SHOWING once,
and refreshing again over the unchanged data performs no further write. -/
theorem refreshStatus_frame_idempotent_witness :
    refreshStatus (refreshStatus exStore exFilm 0 0).2 exFilmAfter 0 0
      = (computeStatus exStore exFilm 0 0, (refreshStatus exStore exFilm 0 0).2) :=
  (refreshStatus_frame_idempotent exStore exFilm 0 0).2.2.2.2.2 rfl exFilmAfter (by decide)

theorem refreshStatus_synced (st : Store) (film : Film) (today now : Int)
    (hgf : getFilm st film.id = some film) (f1 : Film)
    (hf1 : getFilm (refreshStatus st film today now).2 film.id = some f1) :
    f1.status = computeStatus (refreshStatus st film today now).2 f1 today now := by
  rw [refreshStatus_getFilm_self st film today now hgf] at hf1
  have hf1e : f1 = { film with status := computeStatus st film today now } :=
    (Option.some.inj hf1).symm
  subst hf1e
  have hcs : computeStatus (refreshStatus st film today now).2
      { film with status := computeStatus st film today now } today now
      = computeStatus st film today now :=
    computeStatus_congr _ st _ film today now (refreshStatus_seances st film today now) rfl rfl
  rw [hcs]

theorem find_update_self (l : List Film) (g : Film)
    (hany : l.any (fun x => x.id == g.id) = true) :
    (l.map (fun x => if x.id == g.id then g else x)).find? (fun f => f.id == g.id)
      = some g := by
  induction l with
  | nil => cases hany
  | cons a l ih =>
    rw [List.map_cons]
    by_cases hb : (a.id == g.id) = true
    · rw [if_pos hb]
      exact List.find?_cons_of_pos _ (by simp)
    · have hany1 : l.any (fun x => x.id == g.id) = true := by
        rw [List.any_cons, Bool.eq_false_iff.mpr hb] at hany
        simpa using hany
      rw [if_neg hb, List.find?_cons_of_neg _ (by exact hb)]
      exact ih hany1

theorem find_append_self (l : List Film) (g : Film)
    (hany : l.any (fun x => x.id == g.id) = false) :
    (l ++ [g]).find? (fun f => f.id == g.id) = some g := by
  induction l with
  | nil => exact List.find?_cons_of_pos _ (by simp)
  | cons a l ih =>
    rw [List.any_cons] at hany
    obtain ⟨hb, hany1⟩ := Bool.or_eq_false_iff.mp hany
    rw [List.cons_append, List.find?_cons_of_neg _ (by simp [hb])]
    exact ih hany1

theorem getFilm_filmWrite (st : Store) (g : Film) :
    getFilm (filmWrite st g) g.id = some g := by
  unfold filmWrite getFilm
  split
  next hany => exact find_update_self st.films g hany
  next hany => exact find_append_self st.films g (Bool.eq_false_iff.mpr hany)

/-- C4: after every successful showtime create or update the stored
status of the film owning the record equals the Status Deriver's value
over the resulting store; the same holds for the prior owner after a
showtime delete, and for the film itself after a film save. -/
theorem mutations_keep_status_synced (st : Store) (cfg : Config) (today now : Int) :
    (∀ c s st1, seanceSave st cfg today now c = (.ok s, st1) →
      ∀ f1, getFilm st1 s.filmId = some f1 → f1.status = computeStatus st1 f1 today now) ∧
    (∀ sid s, st.seances.find? (fun x => x.id == sid) = some s →
      ∀ f1, getFilm (seanceDelete st today now sid) s.filmId = some f1 →
        f1.status = computeStatus (seanceDelete st today now sid) f1 today now) ∧
    (∀ g f1, getFilm (filmSave st today now g) g.id = some f1 →
      f1.status = computeStatus (filmSave st today now g) f1 today now) := by
  refine ⟨?_, ?_, ?_⟩
  · intro c s st1 h f1 hf1
    obtain ⟨fid, hid, t, film, d, hf, hh, ht, hfilm, hd, hd0, hearly, hs, hst1⟩ :=
      seanceSave_ok_inv st cfg today now c s st1 h
    have hsfid : s.filmId = fid := by
      rw [hs]
      exact (writeSeance_fst st c.pk fid hid t _).1
    have hfid : film.id = fid := by
      have hfind : st.films.find? (fun g => g.id == fid) = some film := hfilm
      have := List.find?_some hfind
      simpa using this
    have hws : getFilm (writeSeance st c.pk fid hid t (some (t + (d : Int)))).2 film.id
        = some film := by
      rw [hfid,
        ← getFilm_congr_films st _ fid (writeSeance_films st c.pk fid hid t _).symm]
      exact hfilm
    rw [hst1, hsfid] at hf1
    have hf1a : getFilm (refreshStatus (writeSeance st c.pk fid hid t
        (some (t + (d : Int)))).2 film today now).2 film.id = some f1 := by
      rw [hfid]
      exact hf1
    rw [hst1]
    exact refreshStatus_synced _ film today now hws f1 hf1a
  · intro sid s hfind f1 hf1
    have hdel : seanceDelete st today now sid =
        match getFilm { st with seances := st.seances.filter (fun x => !(x.id == sid)) }
            s.filmId with
        | some film =>
          (refreshStatus { st with seances := st.seances.filter (fun x => !(x.id == sid)) }
            film today now).2
        | none => { st with seances := st.seances.filter (fun x => !(x.id == sid)) } := by
      simp only [seanceDelete, hfind]
    cases hg : getFilm { st with seances := st.seances.filter (fun x => !(x.id == sid)) }
        s.filmId with
    | none =>
      simp only [hg] at hdel
      rw [hdel, hg] at hf1
      cases hf1
    | some film =>
      simp only [hg] at hdel
      rw [hdel] at hf1 ⊢
      have hfid : film.id = s.filmId := by
        have hfind2 : ({ st with seances := st.seances.filter (fun x => !(x.id == sid)) }
            : Store).films.find? (fun g => g.id == s.filmId) = some film := hg
        have := List.find?_some hfind2
        simpa using this
      rw [← hfid] at hf1
      refine refreshStatus_synced _ film today now ?_ f1 hf1
      rw [hfid]
      exact hg
  · intro g f1 hf1
    simp only [filmSave] at hf1 ⊢
    exact refreshStatus_synced (filmWrite st g) g today now (getFilm_filmWrite st g) f1 hf1

/-- C4 witness: after saving the accepted 12:31 showtime, the stored
status of film 1 equals the status derived from the resulting store. -/
theorem mutations_keep_status_synced_witness :
    ∃ f1, getFilm exStoreAfter 1 = some f1 ∧
      f1.status = computeStatus exStoreAfter f1 0 0 := by
  refine ⟨exFilmAfter, by decide, ?_⟩
  exact (mutations_keep_status_synced exStore exCfg 0 0).1 (exDraft 1 751)
    ⟨2, 1, 1, 751, some 871⟩ exStoreAfter (by decide) exFilmAfter (by decide)

theorem bulkStep_counts (cfg : Config) (today now : Int) (spec : BulkSpec)
    (acc : BulkResult × Store) (cand : Int × Nat) :
    (bulkStep cfg today now spec acc cand).1.created
      + (bulkStep cfg today now spec acc cand).1.skipped
      + (bulkStep cfg today now spec acc cand).1.errors.length
    = acc.1.created + acc.1.skipped + acc.1.errors.length + 1 := by
  simp only [bulkStep]
  split
  · dsimp only
    omega
  · split
    · dsimp only
      omega
    · dsimp only
      simp only [List.length_append, List.length_singleton]
      omega

theorem bulkFold_counts (cfg : Config) (today now : Int) (spec : BulkSpec) :
    ∀ (cands : List (Int × Nat)) (acc : BulkResult × Store),
      ((cands.foldl (bulkStep cfg today now spec) acc).1.created
        + (cands.foldl (bulkStep cfg today now spec) acc).1.skipped
        + (cands.foldl (bulkStep cfg today now spec) acc).1.errors.length)
      = acc.1.created + acc.1.skipped + acc.1.errors.length + cands.length := by
  intro cands
  induction cands with
  | nil => intro acc; simp
  | cons cand rest ih =>
    intro acc
    rw [List.foldl_cons, ih (bulkStep cfg today now spec acc cand),
      bulkStep_counts cfg today now spec acc cand]
    simp only [List.length_cons]
    omega

theorem bulkFold_tags (cfg : Config) (today now : Int) (spec : BulkSpec) :
    ∀ (cands : List (Int × Nat)) (acc : BulkResult × Store),
      ∀ x ∈ (cands.foldl (bulkStep cfg today now spec) acc).1.errors,
        x ∈ acc.1.errors ∨ (x.1, x.2.1) ∈ cands := by
  intro cands
  induction cands with
  | nil =>
    intro acc x hx
    exact Or.inl hx
  | cons cand rest ih =>
    intro acc x hx
    rw [List.foldl_cons] at hx
    rcases ih (bulkStep cfg today now spec acc cand) x hx with hx1 | hx1
    · simp only [bulkStep] at hx1
      split at hx1
      · exact Or.inl hx1
      · split at hx1
        · exact Or.inl hx1
        · simp only [] at hx1
          rcases List.mem_append.mp hx1 with hx2 | hx2
          · exact Or.inl hx2
          · rcases List.mem_singleton.mp hx2 with rfl
            exact Or.inr (List.mem_cons_self _ _)
    · exact Or.inr (List.mem_cons_of_mem _ hx1)

theorem cleanTimes_invalid (raw : List Char)
    (h : ((tokenize raw).filter (fun p => (parseHHMM p).isNone)).isEmpty = false) :
    cleanTimes raw
      = .error (.invalidTokens ((tokenize raw).filter (fun p => (parseHHMM p).isNone))) := by
  simp only [cleanTimes, h]
  rfl

theorem cleanTimes_noTimes (raw : List Char)
    (h1 : ((tokenize raw).filter (fun p => (parseHHMM p).isNone)).isEmpty = true)
    (h2 : ((tokenize raw).filterMap parseHHMM).isEmpty = true) :
    cleanTimes raw = .error .empty := by
  simp only [cleanTimes, h1, h2]
  rfl

theorem cleanTimes_ok (raw : List Char)
    (h1 : ((tokenize raw).filter (fun p => (parseHHMM p).isNone)).isEmpty = true)
    (h2 : ((tokenize raw).filterMap parseHHMM).isEmpty = false) :
    cleanTimes raw = .ok ((tokenize raw).filterMap parseHHMM) := by
  simp only [cleanTimes, h1, h2]
  rfl

theorem cleanTimes_invalid_iff (raw : List Char) :
    ((tokenize raw).filter (fun p => (parseHHMM p).isNone)).isEmpty = false ↔
      ∃ tk ∈ tokenize raw, parseHHMM tk = none := by
  rw [List.isEmpty_eq_false_iff_exists_mem]
  constructor
  · rintro ⟨tk, htk⟩
    obtain ⟨hmem, hnone⟩ := List.mem_filter.mp htk
    exact ⟨tk, hmem, Option.isNone_iff_eq_none.mp hnone⟩
  · rintro ⟨tk, hmem, hnone⟩
    exact ⟨tk, List.mem_filter.mpr ⟨hmem, Option.isNone_iff_eq_none.mpr hnone⟩⟩

/-- C7: the bulk form fails as a whole exactly for the upfront failures —
end date before start date, unparseable time tokens, or an empty time set
— with zero candidates expanded; a failing validation with bad tokens
reports every invalid token together; and the expansion itself always
processes every candidate to one of created, skipped, or a failure tagged
with the candidate's date and time, never aborting the rest. -/
theorem bulkCreate_upfront_and_total (cfg : Config) (today now : Int) (inp : FormInput)
    (st : Store) :
    ((∃ e, bulkCreate cfg today now inp st = .error e) ↔
      (inp.endDate < inp.startDate ∨
        (∃ tk ∈ tokenize inp.timesRaw, parseHHMM tk = none) ∨
        (tokenize inp.timesRaw).filterMap parseHHMM = [])) ∧
    (∀ l, bulkCreate cfg today now inp st = .error (.times (.invalidTokens l)) →
      l = (tokenize inp.timesRaw).filter (fun p => (parseHHMM p).isNone) ∧ l ≠ []) ∧
    (∀ spec, (bulkSave cfg today now spec st).1.created
        + (bulkSave cfg today now spec st).1.skipped
        + (bulkSave cfg today now spec st).1.errors.length
      = (candidatePairs spec).length) ∧
    (∀ spec, ∀ x ∈ (bulkSave cfg today now spec st).1.errors,
      (x.1, x.2.1) ∈ candidatePairs spec) := by
  refine ⟨?_, ?_, ?_, ?_⟩
  · cases hinv : ((tokenize inp.timesRaw).filter (fun p => (parseHHMM p).isNone)).isEmpty with
    | false =>
      have hex := (cleanTimes_invalid_iff inp.timesRaw).mp hinv
      constructor
      · intro _
        exact Or.inr (Or.inl hex)
      · intro _
        refine ⟨.times (.invalidTokens
          ((tokenize inp.timesRaw).filter (fun p => (parseHHMM p).isNone))), ?_⟩
        simp only [bulkCreate, validateForm, cleanTimes_invalid inp.timesRaw hinv]
    | true =>
      have hnoinv : ¬∃ tk ∈ tokenize inp.timesRaw, parseHHMM tk = none := by
        intro hex
        rw [(cleanTimes_invalid_iff inp.timesRaw).mpr hex] at hinv
        cases hinv
      cases hp : ((tokenize inp.timesRaw).filterMap parseHHMM).isEmpty with
      | true =>
        constructor
        · intro _
          exact Or.inr (Or.inr (List.isEmpty_iff.mp hp))
        · intro _
          refine ⟨.times .empty, ?_⟩
          simp only [bulkCreate, validateForm, cleanTimes_noTimes inp.timesRaw hinv hp]
      | false =>
        have hne : (tokenize inp.timesRaw).filterMap parseHHMM ≠ [] := by
          intro h0
          rw [List.isEmpty_iff.mpr h0] at hp
          cases hp
        by_cases hdate : inp.endDate < inp.startDate
        · constructor
          · intro _
            exact Or.inl hdate
          · intro _
            refine ⟨.badDateRange, ?_⟩
            simp only [bulkCreate, validateForm, cleanTimes_ok inp.timesRaw hinv hp]
            rw [if_pos hdate]
        · constructor
          · rintro ⟨e, he⟩
            simp only [bulkCreate, validateForm, cleanTimes_ok inp.timesRaw hinv hp] at he
            rw [if_neg hdate] at he
            cases he
          · rintro (h | h | h)
            · exact absurd h hdate
            · exact absurd h hnoinv
            · exact absurd h hne
  · intro l hl
    cases hinv : ((tokenize inp.timesRaw).filter (fun p => (parseHHMM p).isNone)).isEmpty with
    | false =>
      simp only [bulkCreate, validateForm, cleanTimes_invalid inp.timesRaw hinv] at hl
      cases hl
      refine ⟨rfl, ?_⟩
      intro h0
      rw [List.isEmpty_iff.mpr h0] at hinv
      cases hinv
    | true =>
      cases hp : ((tokenize inp.timesRaw).filterMap parseHHMM).isEmpty with
      | true =>
        simp only [bulkCreate, validateForm, cleanTimes_noTimes inp.timesRaw hinv hp] at hl
        cases hl
      | false =>
        simp only [bulkCreate, validateForm, cleanTimes_ok inp.timesRaw hinv hp] at hl
        by_cases hdate : inp.endDate < inp.startDate
        · rw [if_pos hdate] at hl
          cases hl
        · rw [if_neg hdate] at hl
          cases hl
  · intro spec
    have h := bulkFold_counts cfg today now spec (candidatePairs spec) (⟨0, 0, []⟩, st)
    simpa [bulkSave] using h
  · intro spec x hx
    have h := bulkFold_tags cfg today now spec (candidatePairs spec) (⟨0, 0, []⟩, st) x
      (by simpa [bulkSave] using hx)
    rcases h with h | h
    · cases h
    · exact h

/-- C7 witness: the form input with times "10:70 xx" is rejected with
both invalid tokens reported together. -/
theorem bulkCreate_upfront_and_total_witness :
    ["10:70".toList, "xx".toList]
        = (tokenize exBadInput.timesRaw).filter (fun p => (parseHHMM p).isNone) ∧
      (["10:70".toList, "xx".toList] : List (List Char)) ≠ [] :=
  (bulkCreate_upfront_and_total exCfg 0 0 exBadInput exStore).2.1
    ["10:70".toList, "xx".toList] (by rfl)

theorem bulkStep_skip (cfg : Config) (today now : Int) (spec : BulkSpec)
    (res : BulkResult) (st : Store) (cand : Int × Nat)
    (h : tripleExists st spec.filmId spec.salleId (candInstant cand) = true) :
    bulkStep cfg today now spec (res, st) cand
      = ({ res with skipped := res.skipped + 1 }, st) := by
  simp only [bulkStep]
  rw [if_pos h]

theorem bulkStep_storeLE (cfg : Config) (today now : Int) (spec : BulkSpec)
    (acc : BulkResult × Store) (cand : Int × Nat) :
    storeLE acc.2 ((bulkStep cfg today now spec acc cand).2) := by
  simp only [bulkStep]
  split
  · exact storeLE_refl _
  · split
    next s st1 heq =>
      show storeLE acc.2 st1
      have hsnd : (seanceSave acc.2 cfg today now (candDraft spec cand)).2 = st1 :=
        congrArg Prod.snd heq
      rw [← hsnd]
      exact seanceSave_storeLE _ cfg today now _ rfl
    next e st1 heq =>
      show storeLE acc.2 st1
      have hsnd : (seanceSave acc.2 cfg today now (candDraft spec cand)).2 = st1 :=
        congrArg Prod.snd heq
      rw [← hsnd]
      exact seanceSave_storeLE _ cfg today now _ rfl

theorem bulkFold_storeLE (cfg : Config) (today now : Int) (spec : BulkSpec) :
    ∀ (cands : List (Int × Nat)) (acc : BulkResult × Store),
      storeLE acc.2 ((cands.foldl (bulkStep cfg today now spec) acc).2) := by
  intro cands
  induction cands with
  | nil => intro acc; exact storeLE_refl _
  | cons cand rest ih =>
    intro acc
    rw [List.foldl_cons]
    exact storeLE_trans _ _ _ (bulkStep_storeLE cfg today now spec acc cand) (ih _)

theorem seanceSave_ok_triple (st : Store) (cfg : Config) (today now : Int)
    (spec : BulkSpec) (cand : Int × Nat) (s : Seance) (st1 : Store)
    (h : seanceSave st cfg today now (candDraft spec cand) = (.ok s, st1)) :
    tripleExists st1 spec.filmId spec.salleId (candInstant cand) = true := by
  obtain ⟨fid, hid, t, film, d, hf, hh, ht, _, _, _, _, hs, hst1⟩ :=
    seanceSave_ok_inv st cfg today now _ s st1 h
  have hfid : spec.filmId = fid := Option.some.inj hf
  have hhid : spec.salleId = hid := Option.some.inj hh
  have htt : candInstant cand = t := Option.some.inj ht
  subst hfid hhid htt
  have hmem : s ∈ st1.seances := by
    rw [hst1, hs, refreshStatus_seances]
    exact writeSeance_mem st (candDraft spec cand).pk spec.filmId spec.salleId
      (candInstant cand) _
  unfold tripleExists
  refine List.any_eq_true.mpr ⟨s, hmem, ?_⟩
  obtain ⟨h1, h2, h3, _⟩ := writeSeance_fst st (candDraft spec cand).pk spec.filmId
    spec.salleId (candInstant cand) (some (candInstant cand + (d : Int)))
  simp [hs, h1, h2, h3]

theorem candSettled_mono (cfg : Config) (today now : Int) (spec : BulkSpec)
    (st st1 : Store) (cand : Int × Nat) (hle : storeLE st st1)
    (h : candSettled cfg today now spec st cand) :
    candSettled cfg today now spec st1 cand := by
  rcases h with h | ⟨e, h⟩
  · exact Or.inl (tripleExists_mono st st1 _ _ _ hle h)
  · exact Or.inr (seanceSave_err_mono st st1 cfg today now _ e hle h)

theorem bulkStep_settles_self (cfg : Config) (today now : Int) (spec : BulkSpec)
    (acc : BulkResult × Store) (cand : Int × Nat) :
    candSettled cfg today now spec ((bulkStep cfg today now spec acc cand).2) cand := by
  simp only [bulkStep]
  split
  next htrip => exact Or.inl htrip
  next htrip =>
    split
    next s st1 heq =>
      exact Or.inl (seanceSave_ok_triple acc.2 cfg today now spec cand s st1 heq)
    next e st1 heq =>
      have h1 : (seanceSave acc.2 cfg today now (candDraft spec cand)).1 = .err e := by
        rw [heq]
      have hsnd : (seanceSave acc.2 cfg today now (candDraft spec cand)).2 = st1 :=
        congrArg Prod.snd heq
      have h2 : st1 = acc.2 := by
        rw [← hsnd]
        exact seanceSave_err_snd acc.2 cfg today now _ e h1
      show candSettled cfg today now spec st1 cand
      rw [h2]
      exact Or.inr ⟨e, h1⟩

theorem bulkFold_settles (cfg : Config) (today now : Int) (spec : BulkSpec) :
    ∀ (cands : List (Int × Nat)) (acc : BulkResult × Store), ∀ cand ∈ cands,
      candSettled cfg today now spec
        ((cands.foldl (bulkStep cfg today now spec) acc).2) cand := by
  intro cands
  induction cands with
  | nil =>
    intro acc cand h
    cases h
  | cons c0 rest ih =>
    intro acc cand hmem
    rw [List.foldl_cons]
    rcases List.mem_cons.mp hmem with rfl | hmem1
    · exact candSettled_mono cfg today now spec _ _ cand
        (bulkFold_storeLE cfg today now spec rest _)
        (bulkStep_settles_self cfg today now spec acc cand)
    · exact ih (bulkStep cfg today now spec acc c0) cand hmem1

theorem bulkFold_rerun (cfg : Config) (today now : Int) (spec : BulkSpec) (st1 : Store) :
    ∀ (cands : List (Int × Nat)) (res : BulkResult),
      (∀ cand ∈ cands, candSettled cfg today now spec st1 cand) →
      (cands.foldl (bulkStep cfg today now spec) (res, st1)).1.created = res.created ∧
      (cands.foldl (bulkStep cfg today now spec) (res, st1)).2 = st1 ∧
      (cands.foldl (bulkStep cfg today now spec) (res, st1)).1.skipped
        = res.skipped + cands.countP (fun c1 =>
            tripleExists st1 spec.filmId spec.salleId (candInstant c1)) := by
  intro cands
  induction cands with
  | nil =>
    intro res _
    exact ⟨rfl, rfl, by simp⟩
  | cons c0 rest ih =>
    intro res hall
    have hc0 := hall c0 (List.mem_cons_self c0 rest)
    rw [List.foldl_cons]
    cases htrip : tripleExists st1 spec.filmId spec.salleId (candInstant c0) with
    | true =>
      rw [bulkStep_skip cfg today now spec res st1 c0 htrip]
      obtain ⟨h1, h2, h3⟩ := ih { res with skipped := res.skipped + 1 }
        (fun cand hm => hall cand (List.mem_cons_of_mem c0 hm))
      refine ⟨h1, h2, ?_⟩
      rw [h3]
      simp [List.countP_cons, htrip]
      omega
    | false =>
      have herr : ∃ e, (seanceSave st1 cfg today now (candDraft spec c0)).1 = .err e := by
        rcases hc0 with h | h
        · rw [htrip] at h
          cases h
        · exact h
      obtain ⟨e, herr⟩ := herr
      have hpair : seanceSave st1 cfg today now (candDraft spec c0) = (.err e, st1) :=
        Prod.ext_iff.mpr ⟨herr, seanceSave_err_snd st1 cfg today now _ e herr⟩
      have hstep : bulkStep cfg today now spec (res, st1) c0
          = ({ res with errors := res.errors ++ [(c0.1, c0.2, e)] }, st1) := by
        simp only [bulkStep]
        rw [if_neg (by simp [htrip]), hpair]
      rw [hstep]
      obtain ⟨h1, h2, h3⟩ := ih { res with errors := res.errors ++ [(c0.1, c0.2, e)] }
        (fun cand hm => hall cand (List.mem_cons_of_mem c0 hm))
      refine ⟨h1, h2, ?_⟩
      rw [h3]
      simp [List.countP_cons, htrip]

/-- C5: a candidate whose exact (film, hall, starts_at) triple already
exists is recorded as skipped with nothing written for it; consequently
re-running the identical recurrence spec over the unchanged data creates
zero showtimes, leaves the store exactly as it was, and reports as
skipped precisely the candidates whose triple now exists. -/
theorem bulk_skip_and_idempotent (cfg : Config) (today now : Int) (spec : BulkSpec)
    (st : Store) (res : BulkResult) (cand : Int × Nat) :
    (tripleExists st spec.filmId spec.salleId (candInstant cand) = true →
      bulkStep cfg today now spec (res, st) cand
        = ({ res with skipped := res.skipped + 1 }, st)) ∧
    ((bulkSave cfg today now spec ((bulkSave cfg today now spec st).2)).1.created = 0 ∧
      (bulkSave cfg today now spec ((bulkSave cfg today now spec st).2)).2
        = (bulkSave cfg today now spec st).2 ∧
      (bulkSave cfg today now spec ((bulkSave cfg today now spec st).2)).1.skipped
        = (candidatePairs spec).countP (fun c1 =>
            tripleExists (bulkSave cfg today now spec st).2 spec.filmId spec.salleId
              (candInstant c1))) := by
  constructor
  · exact bulkStep_skip cfg today now spec res st cand
  · have hsettle : ∀ c1 ∈ candidatePairs spec,
        candSettled cfg today now spec (bulkSave cfg today now spec st).2 c1 :=
      fun c1 h => bulkFold_settles cfg today now spec (candidatePairs spec)
        (⟨0, 0, []⟩, st) c1 h
    obtain ⟨h1, h2, h3⟩ :=
      bulkFold_rerun cfg today now spec (bulkSave cfg today now spec st).2
        (candidatePairs spec) ⟨0, 0, []⟩ hsettle
    refine ⟨h1, h2, ?_⟩
    show (List.foldl (bulkStep cfg today now spec)
        (⟨0, 0, []⟩, (bulkSave cfg today now spec st).2) (candidatePairs spec)).1.skipped = _
    rw [h3]
    exact Nat.zero_add _

/-- C5 witness: after one expansion of the example spec, re-presenting an
already-created candidate is counted as skipped and writes nothing. -/
theorem bulk_skip_and_idempotent_witness :
    bulkStep exCfg 0 0 exSpec (⟨0, 0, []⟩, exStoreBulk) (10, 600)
      = (⟨0, 1, []⟩, exStoreBulk) :=
  (bulk_skip_and_idempotent exCfg 0 0 exSpec exStoreBulk ⟨0, 0, []⟩ (10, 600)).1 (by decide)

end Cinema
